import Mathlib

/-
  Verification development for the specli merge/update engine.

  The Python source under src/specli is shallowly embedded: a directory
  tree's file inventory is a finite association list from relative paths
  (lists of name components) to file contents (lists of bytes); the
  filesystem-walking functions of filesystem.py, backup.py and
  operations.py become pure Lean functions over these inventories, with
  collaborator outcomes (user prompts, GitHub calls, injected filesystem
  faults) supplied explicitly as parameters.
-/

namespace Specli

/-- File contents, as a list of byte values. -/
abbrev Bytes := List Nat

/-- A path relative to a content root, as a list of name components. -/
abbrev RelPath := List String

/-- The file inventory of a directory tree: an association list from
relative path to file contents.  A real filesystem yields pairwise
distinct paths; lemmas that need this take a Nodup hypothesis. -/
abbrev Tree := List (RelPath × Bytes)

/-- First-match lookup of a file in a tree inventory. -/
def lookupTree : Tree → RelPath → Option Bytes
  | [], _ => none
  | (q, b) :: rest, p => if q = p then some b else lookupTree rest p

/-- Write (create or overwrite) the file at a path in a tree inventory.
Models `shutil.copy2(source_file, target_file)` at one target path. -/
def writeTree : Tree → RelPath → Bytes → Tree
  | [], p, b => [(p, b)]
  | (q, c) :: rest, p, b =>
      if q = p then (q, b) :: rest else (q, c) :: writeTree rest p b

/-- Total byte size of a tree inventory, as summed by
`get_claude_folder_info` from each file's stat size. -/
def sumBytes (t : Tree) : Nat := (t.map (fun f => f.2.length)).sum

/-- Boolean test that the first character list is a prefix of the second. -/
def listStartsWith : List Char → List Char → Bool
  | [], _ => true
  | _ :: _, [] => false
  | a :: as, b :: bs => if a = b then listStartsWith as bs else false

/-- Boolean substring containment on character lists.  Models Python's
`pattern in str(relative_path)` membership test on strings. -/
def containsSub (pat : List Char) : List Char → Bool
  | [] => listStartsWith pat []
  | c :: cs => listStartsWith pat (c :: cs) || containsSub pat cs

/-- Boolean test that the first character list ends with the second. -/
def listEndsWith (s pat : List Char) : Bool :=
  listStartsWith pat.reverse s.reverse

/-- The character rendering of a relative path: components joined by
the slash separator, as produced by `str(relative_path)`. -/
def pathChars : RelPath → List Char
  | [] => []
  | [c] => c.data
  | c :: rest => c.data ++ '/' :: pathChars rest

/-- The preservation patterns of `merge_claude_folders`:
`["settings.local.json"] if preserve_local else []`. -/
def preservePatterns (preserve_local : Bool) : List String :=
  if preserve_local then ["settings.local.json"] else []

/-- The per-file preservation test of `merge_claude_folders`:
`any(pattern in str(relative_path) for pattern in preserve_patterns)`. -/
def matchesPreserve (pats : List String) (rel : RelPath) : Bool :=
  pats.any (fun pat => containsSub pat.data (pathChars rel))

/-- Result record of `merge_claude_folders` (its dict keys that carry
the per-category counts and the outcome flags). -/
structure MergeOutcome where
  success : Bool
  files_updated : Nat
  files_added : Nat
  files_preserved : Nat
  error : Option String
deriving DecidableEq

/-- The source-file walk of `merge_claude_folders`: for each source file
in order, either skip it as preserved, add it when the target path is
absent, overwrite when the bytes differ, or leave an identical file
alone. -/
def mergeWalk (pats : List String) : Tree → Tree → MergeOutcome → Tree × MergeOutcome
  | [], tgt, r => (tgt, r)
  | f :: rest, tgt, r =>
    if matchesPreserve pats f.1 then
      mergeWalk pats rest tgt { r with files_preserved := r.files_preserved + 1 }
    else
      match lookupTree tgt f.1 with
      | some tb =>
        if f.2 ≠ tb then
          mergeWalk pats rest (writeTree tgt f.1 f.2)
            { r with files_updated := r.files_updated + 1 }
        else
          mergeWalk pats rest tgt r
      | none =>
        mergeWalk pats rest (writeTree tgt f.1 f.2)
          { r with files_added := r.files_added + 1 }

/-- The zero-valued result record `merge_claude_folders` starts from. -/
def mergeInit : MergeOutcome :=
  { success := false, files_updated := 0, files_added := 0,
    files_preserved := 0, error := none }

/-- Embedding of `merge_claude_folders` (filesystem.py) for the case in
which both source and target trees exist: walk the source inventory and
apply the per-file add/overwrite/preserve decisions to the target
inventory, then mark success.  Returns the mutated target inventory
together with the result record. -/
def merge_claude_folders (src tgt : Tree) (preserve_local : Bool) : Tree × MergeOutcome :=
  let out := mergeWalk (preservePatterns preserve_local) src tgt mergeInit
  (out.1, { out.2 with success := true })

/-- The kind of filesystem entry found at a reserved path: absent, a
regular file, or a directory. -/
inductive EntryKind where
  | absent
  | fileE
  | dirE
deriving DecidableEq

/-- Outcome of `detect_claude_folder`: the NotFound exception, the
Corrupted exception, or a successful return of the folder path. -/
inductive DetectRes where
  | notFound
  | corrupted
  | ok
deriving DecidableEq

/-- Embedding of `detect_claude_folder` (filesystem.py): given what kind
of entry sits at `repo/.claude` and at `repo/.claude/commands`, raise
ClaudeFolderNotFoundError when the root is absent, raise
ClaudeFolderCorruptedError when the root is a non-directory or the
commands entry is a non-directory, and otherwise succeed (a missing
commands subdirectory is accepted). -/
def detect_claude_folder (claude commands : EntryKind) : DetectRes :=
  match claude with
  | .absent => .notFound
  | .fileE => .corrupted
  | .dirE =>
    match commands with
    | .fileE => .corrupted
    | _ => .ok

/-- Test from `get_claude_folder_info` that a file's immediate parent
directory is named "commands" (`file_path.parent.name == "commands"`).
A file sitting directly in the content root has the root (named
".claude") as its parent, so a one-component path never matches. -/
def parentIsCommands (p : RelPath) : Bool :=
  decide (p.dropLast.getLast? = some "commands")

/-- Test that pathlib's `suffix` of a file name equals ".md": the name
ends with ".md" and the final dot is neither the leading character nor
the last (so the name has at least four characters). -/
def isMdSuffix (name : String) : Bool :=
  listEndsWith name.data ".md".data && decide (4 ≤ name.data.length)

/-- The command-file test of `get_claude_folder_info`:
`file_path.parent.name == "commands" and file_path.suffix == ".md"`. -/
def isCommandFile (p : RelPath) : Bool :=
  parentIsCommands p && isMdSuffix ((p.getLast?).getD "")

/-- The info record accumulated by `get_claude_folder_info` (the dict
keys the claims are about). -/
structure FolderInfo where
  size_bytes : Nat
  command_count : Nat
  files : List RelPath
deriving DecidableEq

/-- One step of the enumeration loop of `get_claude_folder_info`:
record the file's relative path, add its byte size, and bump the
command count when the command-file test holds. -/
def infoStep (info : FolderInfo) (f : RelPath × Bytes) : FolderInfo :=
  { files := info.files ++ [f.1],
    size_bytes := info.size_bytes + f.2.length,
    command_count := info.command_count + (if isCommandFile f.1 then 1 else 0) }

/-- Embedding of `get_claude_folder_info` (filesystem.py): fold over the
recursive enumeration of files, recording each relative path, summing
byte sizes, and counting command files. -/
def get_claude_folder_info (fs : Tree) : FolderInfo :=
  fs.foldl infoStep { size_bytes := 0, command_count := 0, files := [] }

/-- A snapshot directory name under the backup vault: either the bare
second-resolution timestamp, rendered by the code as the decimal string
of the timestamp, or the timestamp with a numeric collision suffix,
rendered with an underscore separator.  The two renderings never
collide, which this structural embedding reflects by constructor
disjointness. -/
inductive BName where
  | stamp (ts : Nat)
  | suffixed (ts : Nat) (k : Nat)
deriving DecidableEq

/-- The backup vault's on-disk state: an association list from snapshot
directory name to the snapshot directory's file inventory. -/
abbrev Vault := List (BName × Tree)

/-- First-match lookup of a snapshot directory in the vault. -/
def lookupVault : Vault → BName → Option Tree
  | [], _ => none
  | (q, t) :: rest, n => if q = n then some t else lookupVault rest n

/-- The candidate snapshot name tried at counter value `k` by
`create_claude_backup`: the bare timestamp for the initial try, then the
`_k` suffixed names. -/
def candidateName (ts k : Nat) : BName :=
  if k = 0 then .stamp ts else .suffixed ts k

/-- The collision loop of `create_claude_backup`: starting from counter
`k`, return the first candidate name not already present in the vault.
The source loops unboundedly over a real directory listing; here the
loop carries fuel, and one more try than there are existing names is
always enough because candidate names are pairwise distinct. -/
def findFreeName (existing : List BName) (ts : Nat) : Nat → Nat → BName
  | k, 0 => candidateName ts k
  | k, fuel + 1 =>
    if candidateName ts k ∈ existing then findFreeName existing ts (k + 1) fuel
    else candidateName ts k

/-- The unique snapshot name chosen by `create_claude_backup` given the
names already in the vault and the current timestamp. -/
def freeBackupName (existing : List BName) (ts : Nat) : BName :=
  findFreeName existing ts 0 (existing.length + 1)

/-- The snapshot directory's contents: the backed-up tree copied one
level deeper under the reserved ".claude" name
(`shutil.copytree(claude_folder, backup_path / ".claude")`). -/
def underClaude (t : Tree) : Tree :=
  t.map (fun f => (".claude" :: f.1, f.2))

/-- The files of a tree inventory that sit under a given top-level
subdirectory, with that component stripped. -/
def filesUnder (d : String) (t : Tree) : Tree :=
  t.filterMap (fun f =>
    match f.1 with
    | c :: rest => if c = d then some (rest, f.2) else none
    | [] => none)

/-- Result record of `BackupManager.create_claude_backup`. -/
structure BackupOutcome where
  success : Bool
  backup_path : Option BName
  error : Option String
deriving DecidableEq

/-- Embedding of `BackupManager.create_claude_backup` (backup.py): fail
when the target's .claude folder does not exist; fail (catching the
raised exception) when the vault path is blocked, e.g. `.claude-backup`
exists as a regular file and `mkdir` raises; otherwise pick the first
free timestamp-derived name and append a snapshot holding a full copy
of the .claude tree nested under ".claude". -/
def create_claude_backup (claudeExists : Bool) (claudeTree : Tree)
    (vaultBlocked : Bool) (vault : Vault) (ts : Nat) : BackupOutcome × Vault :=
  if claudeExists = false then
    ({ success := false, backup_path := none,
       error := some ".claude folder does not exist" }, vault)
  else if vaultBlocked then
    ({ success := false, backup_path := none,
       error := some "Backup failed" }, vault)
  else
    let name := freeBackupName (vault.map Prod.fst) ts
    ({ success := true, backup_path := some name, error := none },
      vault ++ [(name, underClaude claudeTree)])

/-- Result record of `copy_claude_folder` (its dict keys relevant to
the claims; the advertised backup path is kept abstract as a presence
marker). -/
structure CopyOutcome where
  success : Bool
  backup_created : Bool
  backup_path : Option Unit
  files_copied : Nat
  bytes_copied : Nat
  error : Option String
deriving DecidableEq

/-- Filesystem state seen by `copy_claude_folder` at the target: the
target's .claude tree (none when absent) and the sibling backup
directory created by `create_backup` (none when absent). -/
structure CopyState where
  target : Option Tree
  backup : Option Tree
deriving DecidableEq

/-- Embedding of `copy_claude_folder` (filesystem.py).  A missing
source raises ClaudeFolderNotFoundError, modelled as `Except.error`.
When the target's .claude exists and backup is requested, `create_backup`
copies it to a sibling directory (the copy possibly raising, injected by
`backupCopyFails`), then the target is removed and `shutil.copytree`
copies the source over (possibly raising, injected by `copyFails`,
leaving `leftoverTree` behind); the handler rolls back by removing the
partial target, moving the backup over it, and clearing the backup
fields of the result. -/
def copy_claude_folder (sourceExists : Bool) (src : Tree) (st : CopyState)
    (create_backup_if_exists backupCopyFails copyFails : Bool)
    (leftoverTree : Tree) : Except String (CopyOutcome × CopyState) :=
  if sourceExists = false then
    .error "Source .claude folder does not exist"
  else
    match st.target, create_backup_if_exists with
    | some t, true =>
      if backupCopyFails then
        .ok ({ success := false, backup_created := false, backup_path := none,
               files_copied := 0, bytes_copied := 0,
               error := some "backup copy raised" }, st)
      else if copyFails then
        .ok ({ success := false, backup_created := false, backup_path := none,
               files_copied := 0, bytes_copied := 0,
               error := some "copy raised" },
             { target := some t, backup := none })
      else
        .ok ({ success := true, backup_created := true, backup_path := some (),
               files_copied := src.length, bytes_copied := sumBytes src,
               error := none },
             { target := some src, backup := some t })
    | _, _ =>
      if copyFails then
        .ok ({ success := false, backup_created := false, backup_path := none,
               files_copied := 0, bytes_copied := 0,
               error := some "copy raised" },
             { target := some leftoverTree, backup := st.backup })
      else
        .ok ({ success := true, backup_created := false, backup_path := none,
               files_copied := src.length, bytes_copied := sumBytes src,
               error := none },
             { target := some src, backup := st.backup })

/-- The collaborator outcomes and filesystem state an invocation of
`update_operation` observes: target path validation, configured source
repository, the entry kinds detect sees at the target's and the cloned
source's reserved paths, their inventories, the vault state and clock,
the user's backup confirmation, and the injected success or failure of
each external step. -/
structure UpdateEnv where
  pathExists : Bool
  isDir : Bool
  sourceRepoArg : Option String
  configRepo : Option String
  dryRun : Bool
  noBackup : Bool
  userConfirms : Bool
  targetClaudeKind : EntryKind
  targetCommandsKind : EntryKind
  targetClaudeTree : Tree
  vault : Vault
  vaultBlocked : Bool
  ts : Nat
  githubOk : Bool
  repoAccessOk : Bool
  cloneOk : Bool
  sourceClaudeKind : EntryKind
  sourceCommandsKind : EntryKind
  sourceClaudeTree : Tree
  freshCopyFails : Bool
  leftoverTree : Tree
  configSaveOk : Bool

/-- Result record of `update_operation` (the dict keys the claims are
about). -/
structure UpdateOutcome where
  success : Bool
  backup_needed : Bool
  backup_created : Bool
  files_updated : Nat
  files_added : Nat
  files_preserved : Nat
  config_saved : Bool
  error : Option String
deriving DecidableEq

/-- Observable side effects of one `update_operation` invocation: whether
a clone of the source repository was attempted, whether a merge into the
target tree was attempted, the target's .claude inventory afterwards
(none when it did not exist and was not created), and the vault state. -/
structure UpdateTrace where
  cloneAttempted : Bool
  mergeAttempted : Bool
  targetClaude : Option Tree
  vault : Vault
deriving DecidableEq

/-- Embedding of `BackupManager.should_create_backup` (backup.py):
skip when the no-backup flag is set, otherwise the user's confirmation
decides. -/
def should_create_backup (no_backup userConfirms : Bool) : Bool :=
  if no_backup then false else userConfirms

/-- The `create_claude_backup` call `update_operation` makes for a given
environment. -/
def updateBackupCall (env : UpdateEnv) : BackupOutcome × Vault :=
  create_claude_backup (decide (env.targetClaudeKind ≠ EntryKind.absent))
    env.targetClaudeTree env.vaultBlocked env.vault env.ts

/-- The zero-valued result record `update_operation` starts from. -/
def updateInit : UpdateOutcome :=
  { success := false, backup_needed := false, backup_created := false,
    files_updated := 0, files_added := 0, files_preserved := 0,
    config_saved := false, error := none }

/-- The trace of an `update_operation` invocation that has attempted
neither clone nor merge and has the given vault state. -/
def updateTrace0 (env : UpdateEnv) (vault : Vault) : UpdateTrace :=
  { cloneAttempted := false, mergeAttempted := false,
    targetClaude :=
      if env.targetClaudeKind = EntryKind.dirE then some env.targetClaudeTree
      else none,
    vault := vault }

/-- Continuation of `update_operation` after the backup step (operations.py
lines 239 onward): dry-run early return, GitHub setup and repository
validation, clone, source detection, and then merge into an existing
target tree or a fresh copy when the target tree is absent. -/
def updateAfterBackup (env : UpdateEnv) (backup_needed backup_created : Bool)
    (vault : Vault) : UpdateOutcome × UpdateTrace :=
  let r0 := { updateInit with backup_needed := backup_needed,
                              backup_created := backup_created }
  let tr0 := updateTrace0 env vault
  if env.dryRun then
    ({ r0 with success := true }, tr0)
  else if env.githubOk = false then
    ({ r0 with error := some "GitHub CLI error" }, tr0)
  else if env.repoAccessOk = false then
    ({ r0 with error := some "Repository validation error" }, tr0)
  else
    let tr1 := { tr0 with cloneAttempted := true }
    if env.cloneOk = false then
      ({ r0 with error := some "Repository clone error" }, tr1)
    else
      match detect_claude_folder env.sourceClaudeKind env.sourceCommandsKind with
      | .notFound =>
        ({ r0 with error := some "No .claude folder found in source repository" }, tr1)
      | .corrupted =>
        ({ r0 with error := some "Corrupted .claude folder in source" }, tr1)
      | .ok =>
        match detect_claude_folder env.targetClaudeKind env.targetCommandsKind with
        | .ok =>
          let m := merge_claude_folders env.sourceClaudeTree env.targetClaudeTree true
          ({ r0 with success := m.2.success,
                     files_updated := m.2.files_updated,
                     files_added := m.2.files_added,
                     files_preserved := m.2.files_preserved,
                     config_saved := env.configSaveOk },
           { tr1 with mergeAttempted := true, targetClaude := some m.1 })
        | .notFound =>
          match copy_claude_folder true env.sourceClaudeTree
              { target := none, backup := none } true false env.freshCopyFails
              env.leftoverTree with
          | .ok (cres, cst) =>
            if cres.success then
              ({ r0 with success := true, files_added := cres.files_copied,
                         config_saved := env.configSaveOk },
               { tr1 with targetClaude := cst.target })
            else
              ({ r0 with error := some "Failed to deploy" },
               { tr1 with targetClaude := cst.target })
          | .error _ =>
            ({ r0 with error := some "Update operation error" }, tr1)
        | .corrupted =>
          ({ r0 with error := some "Update operation error" }, tr1)

/-- Embedding of `update_operation` (operations.py): validate the target
path, resolve the source repository from the argument or the saved
configuration, detect the target's .claude tree, take the
backup-decision branch (a failed backup aborts the whole update before
any clone or merge), and continue with `updateAfterBackup`. -/
def update_operation (env : UpdateEnv) : UpdateOutcome × UpdateTrace :=
  let tr0 := updateTrace0 env env.vault
  if env.pathExists = false then
    ({ updateInit with error := some "Target path does not exist" }, tr0)
  else if env.isDir = false then
    ({ updateInit with error := some "Target path is not a directory" }, tr0)
  else
    match env.sourceRepoArg <|> env.configRepo with
    | none =>
      ({ updateInit with
           error := some "No source repository specified and no configuration found" },
       tr0)
    | some _ =>
      match detect_claude_folder env.targetClaudeKind env.targetCommandsKind with
      | .corrupted =>
        ({ updateInit with error := some "Unexpected error" }, tr0)
      | .notFound => updateAfterBackup env false false env.vault
      | .ok =>
        if env.noBackup = false ∧ env.dryRun = false then
          if should_create_backup env.noBackup env.userConfirms then
            let b := updateBackupCall env
            if b.1.success then updateAfterBackup env true true b.2
            else
              ({ updateInit with backup_needed := true,
                                 error := some "Backup failed" },
               { tr0 with vault := b.2 })
          else updateAfterBackup env true false env.vault
        else updateAfterBackup env true false env.vault

/-- Writing one path changes the lookup only at that path. -/
theorem lookupTree_writeTree (t : Tree) (q : RelPath) (b : Bytes) (p : RelPath) :
    lookupTree (writeTree t q b) p = if q = p then some b else lookupTree t p := by
  induction t with
  | nil => simp [writeTree, lookupTree]
  | cons f rest ih =>
    obtain ⟨a, c⟩ := f
    by_cases haq : a = q
    · subst haq
      by_cases hap : a = p
      · subst hap
        simp [writeTree, lookupTree]
      · simp [writeTree, lookupTree, hap]
    · by_cases hap : a = p
      · subst hap
        have hqp : ¬ q = a := fun h => haq h.symm
        simp [writeTree, lookupTree, haq, hqp]
      · simp [writeTree, lookupTree, haq, hap, ih]

/-- The merge walk leaves every path outside the source inventory
untouched. -/
theorem mergeWalk_lookup_not_mem (pats : List String) (src : Tree) (tgt : Tree)
    (r : MergeOutcome) (p : RelPath) (hp : p ∉ src.map Prod.fst) :
    lookupTree (mergeWalk pats src tgt r).1 p = lookupTree tgt p := by
  induction src generalizing tgt r with
  | nil => simp [mergeWalk]
  | cons f rest ih =>
    have hfp : ¬ f.1 = p := by
      intro h
      exact hp (by simp [h])
    have hrest : p ∉ rest.map Prod.fst := by
      intro h
      exact hp (by simp [h])
    simp only [mergeWalk]
    by_cases hm : matchesPreserve pats f.1 = true
    · rw [if_pos hm]
      exact ih _ _ hrest
    · rw [if_neg hm]
      rcases hl : lookupTree tgt f.1 with _ | tb
      · simp only []
        rw [ih _ _ hrest, lookupTree_writeTree, if_neg hfp]
      · by_cases hne : f.2 ≠ tb
        · simp only [if_pos hne]
          rw [ih _ _ hrest, lookupTree_writeTree, if_neg hfp]
        · simp only [if_neg hne]
          exact ih _ _ hrest

/-- The merge walk increments the preserved counter once per source
file matching a preservation pattern, regardless of the target. -/
theorem mergeWalk_preserved (pats : List String) (src : Tree) (tgt : Tree)
    (r : MergeOutcome) :
    (mergeWalk pats src tgt r).2.files_preserved =
      r.files_preserved + src.countP (fun f => matchesPreserve pats f.1) := by
  induction src generalizing tgt r with
  | nil => simp [mergeWalk]
  | cons f rest ih =>
    simp only [mergeWalk, List.countP_cons]
    by_cases hm : matchesPreserve pats f.1 = true
    · rw [if_pos hm, ih]
      simp [hm]
      omega
    · rw [if_neg hm]
      have hm' : (matchesPreserve pats f.1 = true) = False := by simp [hm]
      rcases hl : lookupTree tgt f.1 with _ | tb
      · simp only []
        rw [ih]
        simp [hm']
      · by_cases hne : f.2 ≠ tb
        · simp only [if_pos hne]
          rw [ih]
          simp [hm']
        · simp only [if_neg hne]
          rw [ih]
          simp [hm']

/-- Each source file contributes at most one to the sum of the added,
updated and preserved counters. -/
theorem mergeWalk_counts_le (pats : List String) (src : Tree) (tgt : Tree)
    (r : MergeOutcome) :
    (mergeWalk pats src tgt r).2.files_added +
      (mergeWalk pats src tgt r).2.files_updated +
      (mergeWalk pats src tgt r).2.files_preserved ≤
    r.files_added + r.files_updated + r.files_preserved + src.length := by
  induction src generalizing tgt r with
  | nil => simp [mergeWalk]
  | cons f rest ih =>
    simp only [mergeWalk, List.length_cons]
    by_cases hm : matchesPreserve pats f.1 = true
    · rw [if_pos hm]
      have := ih tgt { r with files_preserved := r.files_preserved + 1 }
      simp only [] at this
      omega
    · rw [if_neg hm]
      rcases hl : lookupTree tgt f.1 with _ | tb
      · simp only []
        have := ih (writeTree tgt f.1 f.2) { r with files_added := r.files_added + 1 }
        simp only [] at this
        omega
      · by_cases hne : f.2 ≠ tb
        · simp only [if_pos hne]
          have := ih (writeTree tgt f.1 f.2) { r with files_updated := r.files_updated + 1 }
          simp only [] at this
          omega
        · simp only [if_neg hne]
          have := ih tgt r
          omega

/-- Paths matching a preservation pattern are never written by the merge
walk. -/
theorem mergeWalk_lookup_matching (pats : List String) (src : Tree) (tgt : Tree)
    (r : MergeOutcome) (p : RelPath) (hp : matchesPreserve pats p = true) :
    lookupTree (mergeWalk pats src tgt r).1 p = lookupTree tgt p := by
  induction src generalizing tgt r with
  | nil => simp [mergeWalk]
  | cons f rest ih =>
    simp only [mergeWalk]
    by_cases hm : matchesPreserve pats f.1 = true
    · rw [if_pos hm]
      exact ih _ _
    · have hfp : ¬ f.1 = p := by
        intro h
        rw [h] at hm
        exact hm hp
      rw [if_neg hm]
      rcases hl : lookupTree tgt f.1 with _ | tb
      · simp only []
        rw [ih _ _, lookupTree_writeTree, if_neg hfp]
      · by_cases hne : f.2 ≠ tb
        · simp only [if_pos hne]
          rw [ih _ _, lookupTree_writeTree, if_neg hfp]
        · simp only [if_neg hne]
          exact ih _ _

/-- After the merge walk, every non-preserved source file is present in
the target with the source's bytes (source paths pairwise distinct). -/
theorem mergeWalk_lookup_self (pats : List String) (src : Tree) (tgt : Tree)
    (r : MergeOutcome) (hnd : (src.map Prod.fst).Nodup) (f : RelPath × Bytes)
    (hf : f ∈ src) (hm : matchesPreserve pats f.1 = false) :
    lookupTree (mergeWalk pats src tgt r).1 f.1 = some f.2 := by
  induction src generalizing tgt r with
  | nil => cases hf
  | cons g rest ih =>
    rw [List.map_cons, List.nodup_cons] at hnd
    rcases List.mem_cons.mp hf with hfg | hfr
    · subst hfg
      simp only [mergeWalk]
      rw [if_neg (by simp [hm])]
      rcases hl : lookupTree tgt f.1 with _ | tb
      · simp only []
        rw [mergeWalk_lookup_not_mem _ _ _ _ _ hnd.1, lookupTree_writeTree, if_pos rfl]
      · by_cases hne : f.2 ≠ tb
        · simp only [if_pos hne]
          rw [mergeWalk_lookup_not_mem _ _ _ _ _ hnd.1, lookupTree_writeTree, if_pos rfl]
        · simp only [if_neg hne]
          rw [mergeWalk_lookup_not_mem _ _ _ _ _ hnd.1, hl]
          simp at hne
          rw [hne]
    · simp only [mergeWalk]
      by_cases hmg : matchesPreserve pats g.1 = true
      · rw [if_pos hmg]
        exact ih _ _ hnd.2 hfr
      · rw [if_neg hmg]
        rcases hl : lookupTree tgt g.1 with _ | tb
        · simp only []
          exact ih _ _ hnd.2 hfr
        · by_cases hne : g.2 ≠ tb
          · simp only [if_pos hne]
            exact ih _ _ hnd.2 hfr
          · simp only [if_neg hne]
            exact ih _ _ hnd.2 hfr

/-- When every source file is either preserved or already identical in
the target, the merge walk changes nothing and adds or updates no
file. -/
theorem mergeWalk_stable (pats : List String) (src : Tree) (tgt : Tree)
    (r : MergeOutcome)
    (h : ∀ f ∈ src, matchesPreserve pats f.1 = true ∨ lookupTree tgt f.1 = some f.2) :
    (mergeWalk pats src tgt r).1 = tgt ∧
    (mergeWalk pats src tgt r).2.files_added = r.files_added ∧
    (mergeWalk pats src tgt r).2.files_updated = r.files_updated := by
  induction src generalizing r with
  | nil => simp [mergeWalk]
  | cons f rest ih =>
    simp only [mergeWalk]
    by_cases hm : matchesPreserve pats f.1 = true
    · rw [if_pos hm]
      exact ih _ fun g hg => h g (List.mem_cons_of_mem _ hg)
    · rw [if_neg hm]
      have hl : lookupTree tgt f.1 = some f.2 :=
        (h f (List.mem_cons_self _ _)).resolve_left hm
      rw [hl]
      simp only []
      rw [if_neg (by simp : ¬ f.2 ≠ f.2)]
      exact ih _ fun g hg => h g (List.mem_cons_of_mem _ hg)

/-- The info fold's command counter accumulates one per file passing
the command-file test. -/
theorem infoFold_command_count (fs : Tree) (init : FolderInfo) :
    (fs.foldl infoStep init).command_count =
      init.command_count + fs.countP (fun f => isCommandFile f.1) := by
  induction fs generalizing init with
  | nil => simp
  | cons f rest ih =>
    rw [List.foldl_cons, ih, List.countP_cons]
    simp only [infoStep]
    by_cases h : isCommandFile f.1 = true
    · simp [h]
      omega
    · simp [h]

/-- Stripping the ".claude" component recovers the tree that was copied
under it. -/
theorem filesUnder_underClaude (t : Tree) : filesUnder ".claude" (underClaude t) = t := by
  induction t with
  | nil => rfl
  | cons f rest ih =>
    simp only [underClaude, List.map_cons, filesUnder, List.filterMap_cons] at *
    simp [ih]

/-- Vault lookup skips a leading segment containing no occurrence of
the looked-up name. -/
theorem lookupVault_append_not_mem (v w : Vault) (n : BName)
    (h : n ∉ v.map Prod.fst) :
    lookupVault (v ++ w) n = lookupVault w n := by
  induction v with
  | nil => rfl
  | cons e rest ih =>
    have hne : ¬ e.1 = n := by
      intro he
      exact h (by simp [he])
    have hrest : n ∉ rest.map Prod.fst := by
      intro hr
      exact h (by simp [hr])
    obtain ⟨a, c⟩ := e
    simp only [List.cons_append, lookupVault]
    rw [if_neg hne]
    exact ih hrest

/-- One unfolding step of the collision loop. -/
theorem findFreeName_succ (existing : List BName) (ts k fuel : Nat) :
    findFreeName existing ts k (fuel + 1) =
      if candidateName ts k ∈ existing then findFreeName existing ts (k + 1) fuel
      else candidateName ts k := rfl

/-- Claim C2: every file present in the target tree before merge whose
relative path does not occur in the source tree is still present with
byte-identical content after merge, and the merge's counters account for
at most the source files, so no target-only file is deleted or
reported. -/
theorem merge_no_deletion (src tgt : Tree) (pl : Bool) (p : RelPath) (b : Bytes)
    (hb : lookupTree tgt p = some b) (hp : p ∉ src.map Prod.fst) :
    lookupTree (merge_claude_folders src tgt pl).1 p = some b ∧
    (merge_claude_folders src tgt pl).2.files_added +
      (merge_claude_folders src tgt pl).2.files_updated +
      (merge_claude_folders src tgt pl).2.files_preserved ≤ src.length := by
  constructor
  · simp only [merge_claude_folders]
    rw [mergeWalk_lookup_not_mem _ _ _ _ _ hp, hb]
  · simp only [merge_claude_folders]
    have h := mergeWalk_counts_le (preservePatterns pl) src tgt mergeInit
    simp only [mergeInit] at h ⊢
    omega

/-- Witness for C2 at a concrete source, target and target-only path. -/
theorem merge_no_deletion_witness :
    lookupTree [(["b"], [2])] ["b"] = some [2] ∧
    (["b"] : RelPath) ∉ ([(["a"], [1])] : Tree).map Prod.fst ∧
    (lookupTree (merge_claude_folders [(["a"], [1])] [(["b"], [2])] true).1 ["b"] = some [2] ∧
      (merge_claude_folders [(["a"], [1])] [(["b"], [2])] true).2.files_added +
        (merge_claude_folders [(["a"], [1])] [(["b"], [2])] true).2.files_updated +
        (merge_claude_folders [(["a"], [1])] [(["b"], [2])] true).2.files_preserved ≤
        ([(["a"], [1])] : Tree).length) :=
  ⟨by decide, by decide,
    merge_no_deletion [(["a"], [1])] [(["b"], [2])] true ["b"] [2] (by decide) (by decide)⟩

/-- Claim C10: the merge's preserved counter equals the number of source
files whose relative path matches a preservation pattern, for every
target tree (in particular when no file exists at the mirrored target
path), so it counts matching source files rather than target files that
were actually protected. -/
theorem merge_preserved_counts_sources (src tgt : Tree) (pl : Bool) :
    (merge_claude_folders src tgt pl).2.files_preserved =
      src.countP (fun f => matchesPreserve (preservePatterns pl) f.1) := by
  simp only [merge_claude_folders]
  rw [mergeWalk_preserved]
  simp [mergeInit]

/-- The claim C3 predicate as the specification words it: the relative
path equals "settings.local.json" or its final name component is
"settings.local.json". -/
def specEqOrNamedLocalSettings (rel : RelPath) : Bool :=
  decide (pathChars rel = "settings.local.json".data) ||
    decide (rel.getLast? = some "settings.local.json")

/-- Counterexample to claim C3 as stated: the source file
"settings.local.json.bak" neither equals nor is named
"settings.local.json", yet the default merge counts it preserved and
does not add it, because the code tests substring containment of the
pattern in the path string. -/
theorem merge_preserve_substring_cex :
    (merge_claude_folders [(["settings.local.json.bak"], [1])] [] true).2.files_preserved = 1 ∧
    (merge_claude_folders [(["settings.local.json.bak"], [1])] [] true).2.files_added = 0 ∧
    specEqOrNamedLocalSettings ["settings.local.json.bak"] = false := by
  refine ⟨by decide, by decide, by decide⟩

/-- Claim C3 (amended): during merge with the default policy, a source
file is skipped as preserved exactly when "settings.local.json" occurs
as a substring of the string form of its relative path; matching target
paths are left untouched, and every non-matching source file ends up in
the target with the source's bytes. -/
theorem merge_preserve_substring (src tgt : Tree)
    (hnd : (src.map Prod.fst).Nodup) :
    (merge_claude_folders src tgt true).2.files_preserved =
      src.countP (fun f => matchesPreserve (preservePatterns true) f.1) ∧
    (∀ p, matchesPreserve (preservePatterns true) p = true →
      lookupTree (merge_claude_folders src tgt true).1 p = lookupTree tgt p) ∧
    (∀ f ∈ src, matchesPreserve (preservePatterns true) f.1 = false →
      lookupTree (merge_claude_folders src tgt true).1 f.1 = some f.2) := by
  refine ⟨?_, ?_, ?_⟩
  · simp only [merge_claude_folders]
    rw [mergeWalk_preserved]
    simp [mergeInit]
  · intro p hp
    simp only [merge_claude_folders]
    exact mergeWalk_lookup_matching _ _ _ _ _ hp
  · intro f hf hm
    simp only [merge_claude_folders]
    exact mergeWalk_lookup_self _ _ _ _ hnd f hf hm

/-- Witness for the amended C3 at a concrete source and target: the
matching file is counted preserved and the target's version survives,
the non-matching file is written through. -/
theorem merge_preserve_substring_witness :
    (([(["settings.local.json"], [7]), (["a.md"], [8])] : Tree).map Prod.fst).Nodup ∧
    (merge_claude_folders [(["settings.local.json"], [7]), (["a.md"], [8])]
        [(["settings.local.json"], [9])] true).2.files_preserved =
      ([(["settings.local.json"], [7]), (["a.md"], [8])] : Tree).countP
        (fun f => matchesPreserve (preservePatterns true) f.1) ∧
    lookupTree (merge_claude_folders [(["settings.local.json"], [7]), (["a.md"], [8])]
        [(["settings.local.json"], [9])] true).1 ["settings.local.json"] =
      lookupTree [(["settings.local.json"], [9])] ["settings.local.json"] ∧
    lookupTree (merge_claude_folders [(["settings.local.json"], [7]), (["a.md"], [8])]
        [(["settings.local.json"], [9])] true).1 ["a.md"] = some [8] :=
  ⟨by decide,
    (merge_preserve_substring [(["settings.local.json"], [7]), (["a.md"], [8])]
      [(["settings.local.json"], [9])] (by decide)).1,
    (merge_preserve_substring [(["settings.local.json"], [7]), (["a.md"], [8])]
      [(["settings.local.json"], [9])] (by decide)).2.1 ["settings.local.json"] (by decide),
    (merge_preserve_substring [(["settings.local.json"], [7]), (["a.md"], [8])]
      [(["settings.local.json"], [9])] (by decide)).2.2 (["a.md"], [8]) (by decide) (by decide)⟩

/-- Claim C4: merging the same source into the same target twice in
succession (source paths pairwise distinct, as a filesystem enumeration
yields them) reports zero files added and zero files updated on the
second merge. -/
theorem merge_idempotent (src tgt : Tree) (pl : Bool)
    (hnd : (src.map Prod.fst).Nodup) :
    (merge_claude_folders src (merge_claude_folders src tgt pl).1 pl).2.files_added = 0 ∧
    (merge_claude_folders src (merge_claude_folders src tgt pl).1 pl).2.files_updated = 0 := by
  have hstable : ∀ f ∈ src, matchesPreserve (preservePatterns pl) f.1 = true ∨
      lookupTree (merge_claude_folders src tgt pl).1 f.1 = some f.2 := by
    intro f hf
    by_cases hm : matchesPreserve (preservePatterns pl) f.1 = true
    · exact Or.inl hm
    · right
      simp only [merge_claude_folders]
      exact mergeWalk_lookup_self _ _ _ _ hnd f hf (by simpa using hm)
  have h := mergeWalk_stable (preservePatterns pl) src
    (merge_claude_folders src tgt pl).1 mergeInit hstable
  simp only [merge_claude_folders] at h
  constructor
  · simp only [merge_claude_folders]
    rw [h.2.1]
    rfl
  · simp only [merge_claude_folders]
    rw [h.2.2]
    rfl

/-- Witness for C4 at a concrete source and target. -/
theorem merge_idempotent_witness :
    (([(["commands", "a.md"], [1]), (["settings.local.json"], [2])] : Tree).map Prod.fst).Nodup ∧
    ((merge_claude_folders [(["commands", "a.md"], [1]), (["settings.local.json"], [2])]
        (merge_claude_folders [(["commands", "a.md"], [1]), (["settings.local.json"], [2])]
          [] true).1 true).2.files_added = 0 ∧
      (merge_claude_folders [(["commands", "a.md"], [1]), (["settings.local.json"], [2])]
        (merge_claude_folders [(["commands", "a.md"], [1]), (["settings.local.json"], [2])]
          [] true).1 true).2.files_updated = 0) :=
  ⟨by decide,
    merge_idempotent [(["commands", "a.md"], [1]), (["settings.local.json"], [2])] [] true
      (by decide)⟩

/-- Claim C5: detect fails with NotFound exactly when the content root
is absent, fails with Corrupted when the root is a non-directory or the
reserved command subdirectory is a non-directory, and succeeds
otherwise, in particular when the command subdirectory is entirely
absent. -/
theorem detect_characterization (k : EntryKind) :
    detect_claude_folder EntryKind.absent k = DetectRes.notFound ∧
    detect_claude_folder EntryKind.fileE k = DetectRes.corrupted ∧
    detect_claude_folder EntryKind.dirE EntryKind.fileE = DetectRes.corrupted ∧
    detect_claude_folder EntryKind.dirE EntryKind.absent = DetectRes.ok ∧
    detect_claude_folder EntryKind.dirE EntryKind.dirE = DetectRes.ok := by
  cases k <;> exact ⟨rfl, rfl, rfl, rfl, rfl⟩

/-- The claim C8 counter as the specification words it: the number of
files whose relative path is exactly one name directly inside the
reserved "commands" subdirectory of the root, with the name ending in
".md". -/
def specDirectCommandCount (fs : Tree) : Nat :=
  fs.countP (fun f =>
    match f.1 with
    | [d, n] => decide (d = "commands") && listEndsWith n.data ".md".data
    | _ => false)

/-- Counterexample to claim C8 as stated: a file inside a nested
directory that happens to be named "commands" is counted by the code's
command counter, though it is not directly inside the reserved command
subdirectory of the content root. -/
theorem info_command_count_cex :
    (get_claude_folder_info [((["sub", "commands", "a.md"] : RelPath), ([] : Bytes))]).command_count = 1 ∧
    specDirectCommandCount [((["sub", "commands", "a.md"] : RelPath), ([] : Bytes))] = 0 := by
  refine ⟨by decide, by decide⟩

/-- Claim C8 (amended): the inventory's command count is exactly the
number of enumerated files whose immediate parent directory is named
"commands" — at any depth under the content root — and whose name has
the ".md" extension in pathlib's sense. -/
theorem info_command_count_characterization (fs : Tree) :
    (get_claude_folder_info fs).command_count =
      fs.countP (fun f => isCommandFile f.1) := by
  simp only [get_claude_folder_info]
  rw [infoFold_command_count]
  simp

/-- Claim C7: a successful snapshot appends one snapshot directory to
the vault whose ".claude" subdirectory holds exactly as many files and
exactly as many bytes as the backed-up tree, each byte-identical at the
same relative path. -/
theorem backup_snapshot_complete (t : Tree) (vault : Vault) (ts : Nat) :
    (create_claude_backup true t false vault ts).1.success = true ∧
    ∃ name snap,
      (create_claude_backup true t false vault ts).1.backup_path = some name ∧
      (create_claude_backup true t false vault ts).2 = vault ++ [(name, snap)] ∧
      (filesUnder ".claude" snap).length = t.length ∧
      sumBytes (filesUnder ".claude" snap) = sumBytes t ∧
      ∀ p, lookupTree (filesUnder ".claude" snap) p = lookupTree t p := by
  refine ⟨rfl, freeBackupName (vault.map Prod.fst) ts, underClaude t, rfl, rfl, ?_, ?_, ?_⟩
  · rw [filesUnder_underClaude]
  · rw [filesUnder_underClaude]
  · intro p
    rw [filesUnder_underClaude]

/-- Claim C6: two snapshot calls in the same wall-clock second, against
a vault holding neither candidate name, create two distinct snapshot
directories — the first named by the bare timestamp, the second by the
timestamp with suffix 1 — and both exist afterward with the full copied
tree, the first not overwritten by the second. -/
theorem backup_same_second_distinct (t : Tree) (vault : Vault) (ts : Nat)
    (h1 : BName.stamp ts ∉ vault.map Prod.fst)
    (h2 : BName.suffixed ts 1 ∉ vault.map Prod.fst) :
    (create_claude_backup true t false vault ts).1.backup_path = some (BName.stamp ts) ∧
    (create_claude_backup true t false
        (create_claude_backup true t false vault ts).2 ts).1.backup_path =
      some (BName.suffixed ts 1) ∧
    BName.stamp ts ≠ BName.suffixed ts 1 ∧
    lookupVault (create_claude_backup true t false
        (create_claude_backup true t false vault ts).2 ts).2 (BName.stamp ts) =
      some (underClaude t) ∧
    lookupVault (create_claude_backup true t false
        (create_claude_backup true t false vault ts).2 ts).2 (BName.suffixed ts 1) =
      some (underClaude t) := by
  have e1 : freeBackupName (vault.map Prod.fst) ts = BName.stamp ts := by
    unfold freeBackupName
    rw [findFreeName_succ]
    have hc0 : candidateName ts 0 = BName.stamp ts := by simp [candidateName]
    rw [hc0, if_neg h1]
  have ec1 : (create_claude_backup true t false vault ts).2 =
      vault ++ [(BName.stamp ts, underClaude t)] := by
    simp [create_claude_backup, e1]
  have hmap : (vault ++ [(BName.stamp ts, underClaude t)]).map Prod.fst =
      vault.map Prod.fst ++ [BName.stamp ts] := by simp
  have e2 : freeBackupName ((vault ++ [(BName.stamp ts, underClaude t)]).map Prod.fst) ts =
      BName.suffixed ts 1 := by
    unfold freeBackupName
    rw [hmap]
    have hlen : (vault.map Prod.fst ++ [BName.stamp ts]).length =
        (vault.map Prod.fst).length + 1 := by simp
    rw [hlen, findFreeName_succ]
    have hc0 : candidateName ts 0 = BName.stamp ts := by simp [candidateName]
    rw [hc0, if_pos (by simp)]
    rw [findFreeName_succ]
    have hc1 : candidateName ts (0 + 1) = BName.suffixed ts 1 := by simp [candidateName]
    rw [hc1, if_neg (by simp [h2])]
  have ec2 : (create_claude_backup true t false
      (vault ++ [(BName.stamp ts, underClaude t)]) ts).2 =
      (vault ++ [(BName.stamp ts, underClaude t)]) ++ [(BName.suffixed ts 1, underClaude t)] := by
    simp only [create_claude_backup]
    rw [e2]
    simp
  refine ⟨?_, ?_, by simp, ?_, ?_⟩
  · simp [create_claude_backup, e1]
  · rw [ec1]
    simp only [create_claude_backup]
    rw [e2]
    simp
  · rw [ec1, ec2, List.append_assoc]
    rw [lookupVault_append_not_mem _ _ _ h1]
    simp [lookupVault]
  · rw [ec1, ec2, List.append_assoc]
    rw [lookupVault_append_not_mem _ _ _ h2]
    simp [lookupVault]

/-- Witness for C6 at a concrete tree, empty vault and timestamp. -/
theorem backup_same_second_distinct_witness :
    BName.stamp 7 ∉ (([] : Vault)).map Prod.fst ∧
    BName.suffixed 7 1 ∉ (([] : Vault)).map Prod.fst ∧
    ((create_claude_backup true [(["f"], [3])] false [] 7).1.backup_path =
        some (BName.stamp 7) ∧
      (create_claude_backup true [(["f"], [3])] false
          (create_claude_backup true [(["f"], [3])] false [] 7).2 7).1.backup_path =
        some (BName.suffixed 7 1) ∧
      BName.stamp 7 ≠ BName.suffixed 7 1 ∧
      lookupVault (create_claude_backup true [(["f"], [3])] false
          (create_claude_backup true [(["f"], [3])] false [] 7).2 7).2 (BName.stamp 7) =
        some (underClaude [(["f"], [3])]) ∧
      lookupVault (create_claude_backup true [(["f"], [3])] false
          (create_claude_backup true [(["f"], [3])] false [] 7).2 7).2 (BName.suffixed 7 1) =
        some (underClaude [(["f"], [3])])) :=
  ⟨by decide, by decide,
    backup_same_second_distinct [(["f"], [3])] [] 7 (by decide) (by decide)⟩

/-- Claim C9: when the recursive copy fails after a backup of the
pre-existing target tree was created, the partial target is removed,
the backup is moved back over the target path, and the result reports
no success, no backup created and no backup path, leaving no separate
backup snapshot behind. -/
theorem copy_rollback_on_failure (src t leftover : Tree) :
    ∃ res st,
      copy_claude_folder true src { target := some t, backup := none }
          true false true leftover = .ok (res, st) ∧
      res.success = false ∧ res.backup_created = false ∧ res.backup_path = none ∧
      st.target = some t ∧ st.backup = none :=
  ⟨_, _, rfl, rfl, rfl, rfl, rfl, rfl⟩

/-- A successful detect means the content root is a directory. -/
theorem detect_ok_dirE (claude commands : EntryKind)
    (h : detect_claude_folder claude commands = DetectRes.ok) :
    claude = EntryKind.dirE := by
  cases claude with
  | absent => simp [detect_claude_folder] at h
  | fileE => simp [detect_claude_folder] at h
  | dirE => rfl

/-- Claim C1: an update invocation that reaches the backup step with
backup requested, whose backup creation fails, returns a failure result
immediately: no clone is attempted, no merge is attempted, and the
target content tree is unmodified. -/
theorem update_backup_failure_aborts (env : UpdateEnv)
    (hpath : env.pathExists = true) (hdir : env.isDir = true)
    (hsrc : (env.sourceRepoArg <|> env.configRepo).isSome = true)
    (hdet : detect_claude_folder env.targetClaudeKind env.targetCommandsKind = DetectRes.ok)
    (hnb : env.noBackup = false) (hdr : env.dryRun = false)
    (huc : env.userConfirms = true)
    (hbf : (updateBackupCall env).1.success = false) :
    (update_operation env).1.success = false ∧
    (update_operation env).1.error = some "Backup failed" ∧
    (update_operation env).2.cloneAttempted = false ∧
    (update_operation env).2.mergeAttempted = false ∧
    (update_operation env).2.targetClaude = some env.targetClaudeTree := by
  have hkind := detect_ok_dirE _ _ hdet
  obtain ⟨s, hs⟩ := Option.isSome_iff_exists.mp hsrc
  simp only [update_operation, hpath, hdir, hdr, hnb, huc, hs, hdet, hbf,
    should_create_backup, updateTrace0]
  simp [hkind, updateInit]

/-- The concrete environment of the C1 witness: a valid target holding
a content tree, backup confirmed by the user, and the vault path
blocked so that backup creation fails. -/
def envC1 : UpdateEnv :=
  { pathExists := true, isDir := true, sourceRepoArg := some "octocat/spec",
    configRepo := none, dryRun := false, noBackup := false, userConfirms := true,
    targetClaudeKind := EntryKind.dirE, targetCommandsKind := EntryKind.dirE,
    targetClaudeTree := [(["settings.json"], [1])], vault := [],
    vaultBlocked := true, ts := 0, githubOk := true, repoAccessOk := true,
    cloneOk := true, sourceClaudeKind := EntryKind.dirE,
    sourceCommandsKind := EntryKind.dirE, sourceClaudeTree := [(["a.md"], [2])],
    freshCopyFails := false, leftoverTree := [], configSaveOk := true }

/-- Witness for C1 at the concrete blocked-vault environment. -/
theorem update_backup_failure_aborts_witness :
    (updateBackupCall envC1).1.success = false ∧
    ((update_operation envC1).1.success = false ∧
      (update_operation envC1).1.error = some "Backup failed" ∧
      (update_operation envC1).2.cloneAttempted = false ∧
      (update_operation envC1).2.mergeAttempted = false ∧
      (update_operation envC1).2.targetClaude = some envC1.targetClaudeTree) :=
  ⟨by decide,
    update_backup_failure_aborts envC1 rfl rfl rfl rfl rfl rfl rfl (by decide)⟩

end Specli
